import Mathlib

/-!
Verification development for the `serverless-stripe` deployment plugin.

The definitions below are a shallow embedding of `src/src/ServerlessStripe.ts`,
`src/src/billingPortal.ts` and the products paginator: JavaScript objects become
structures, `metadata` string-to-string bags become association lists with
first-match lookup, fallible code returns `Except String`, and the remote
billing API plus the external secret store are modelled as explicit state that
every operation threads through.  JavaScript truthiness tests on strings
(`!s` holds for `undefined` and `""`) are modelled by `jsTruthy`.
-/

/-- JavaScript truthiness of an optional string value: `undefined` and `""` are
falsy, every other string is truthy. -/
def jsTruthy : Option String → Bool
  | none => false
  | some s => s ≠ ""

/-- A remote entity's `metadata` bag: string keys to string values.  The
JavaScript object spread `\x7b...m, k: v\x7d` is modelled by consing `(k, v)` in
front, because `mdGet` takes the first matching entry. -/
abbrev Metadata := List (String × String)

/-- Reading `metadata.k`: `none` models the JavaScript `undefined`. -/
def mdGet (m : Metadata) (k : String) : Option String :=
  m.lookup k

/-- `Globals.pluginName` from `src/unnamed/part_002`. -/
def pluginName : String := "Serverless Stripe"

/-- A remote webhook endpoint as the reconciler reads it (opaque `id`, `url`,
`enabled_events`, `metadata`).  The one-time creation secret is delivered
separately by the creation oracle, mirroring that listings never reveal it. -/
structure StripeWebhook where
  id : String
  url : String
  enabled_events : List String
  metadata : Metadata
deriving DecidableEq

/-- The `WebhookMetadata` record type of `src/src/ServerlessStripe.ts:37`. -/
structure WebhookMetadata where
  lambda : String
  stage : String
  service : String
  managedBy : String
deriving DecidableEq

/-- The metadata bag actually sent to the provider for a webhook. -/
def WebhookMetadata.toMetadata (m : WebhookMetadata) : Metadata :=
  [("lambda", m.lambda), ("stage", m.stage), ("service", m.service),
   ("managedBy", m.managedBy)]

/-- Embeds `getWebhookMetadata` (src/src/ServerlessStripe.ts:507). -/
def getWebhookMetadata (functionName stage service : String) : WebhookMetadata :=
  { lambda := functionName, stage := stage, service := service,
    managedBy := pluginName }

/-- Embeds `isStripeEntityManagedByThisStack` (src/src/ServerlessStripe.ts:246):
ownership holds iff `managedBy`, `service` and `stage` all match exactly.  The
source's `webhook.metadata || \x7b\x7d` default is subsumed by `mdGet` returning
`none` on a missing key. -/
def isStripeEntityManagedByThisStack (service stage : String) (md : Metadata) :
    Bool :=
  mdGet md "managedBy" == some pluginName &&
  mdGet md "service" == some service &&
  mdGet md "stage" == some stage

/-- A declared webhook, the `WebhookConfig` of `src/src/types.ts:4`. -/
structure WebhookConfig where
  functionName : String
  events : List String
  webhookSecretEnvVariableName : String
deriving DecidableEq

/-- One entry of a serverless function's `events` list: either an `http` object
with a method and a path, an `http` field that is a plain string, or some other
event kind. -/
inductive FnEvent where
  | httpEv (method : String) (path : String)
  | httpStr (s : String)
  | other
deriving DecidableEq

/-- The slice of a serverless function definition the reconciler reads. -/
structure WebhookFunction where
  name : String
  events : List FnEvent
deriving DecidableEq

/-- Embeds `getWebhookUrl` (src/src/ServerlessStripe.ts:328): find the first
event carrying an `http` object whose `method` is `"post"`; throw when none
exists; otherwise return
`https://{domainName}/{basePath}{path}?stripeAccountKey={accountId}` — the
account-key query parameter is appended unconditionally. -/
def getWebhookUrl (domainName basePath accountId : String)
    (webhookFunction : WebhookFunction) : Except String String :=
  match webhookFunction.events.findSome? (fun e =>
      match e with
      | .httpEv m p => if m == "post" then some p else none
      | _ => none) with
  | none =>
      .error ("Function " ++ webhookFunction.name ++
        " does not have an HTTP POST event")
  | some path =>
      .ok ("https://" ++ domainName ++ "/" ++ basePath ++ path ++
        "?stripeAccountKey=" ++ accountId)

/-- Characters admitted by the source's regex `[a-zA-Z0-9_.-]`. -/
def isSsmNameChar (c : Char) : Bool :=
  c.isAlpha || c.isDigit || c == '_' || c == '.' || c == '-'

/-- The test of the regex `[a-zA-Z0-9_.-]+` anchored at both ends: the string is
non-empty and every character lies in the class. -/
def ssmNameMatchesRegex (s : String) : Bool :=
  !s.data.isEmpty && s.data.all isSsmNameChar

/-- Embeds `getSsmParameterName` (src/src/ServerlessStripe.ts:486): build the
deterministic key, throw when it fails the character-class regex, then throw
when its length exceeds `1011 - 80`. -/
def getSsmParameterName (accountId : String) (metadata : WebhookMetadata) :
    Except String String :=
  let name := "stripe-webhook-secret-" ++ accountId ++ "-" ++ metadata.service ++
    "-" ++ metadata.stage ++ "-" ++ metadata.lambda
  if !ssmNameMatchesRegex name then
    .error ("Ssm parameter name " ++ name ++ " does not match regex")
  else
    let maxTotalLength := 1011
    let reservedLength := 80
    let maxLength := maxTotalLength - reservedLength
    if name.length > maxLength then
      .error ("Ssm parameter name " ++ name ++
        " is too long, max length is 1011 characters")
    else
      .ok name

/-- One stored SSM parameter: a value, a parameter whose `Value` field is
absent, or a parameter whose retrieval fails with an error other than
`ParameterNotFound` (the transport-level failures of §6 of the spec). -/
inductive SsmEntry where
  | val (s : String)
  | novalue
  | fault (e : String)
deriving DecidableEq

/-- The external secret store: key to entry, first match wins; a missing key
models the `ParameterNotFound` outcome of `GetParameter`. -/
abbrev SsmStore := List (String × SsmEntry)

/-- Applies webhook-endpoint `update` with full params to the account's webhook
list: the endpoint with the given id gets the new url, events and metadata. -/
def updateRemote (remote : List StripeWebhook) (id url : String)
    (events : List String) (md : Metadata) : List StripeWebhook :=
  remote.map fun w =>
    if w.id == id then { w with url := url, enabled_events := events, metadata := md }
    else w

/-- Applies webhook-endpoint `update` that only carries `metadata`. -/
def updateRemoteMetadata (remote : List StripeWebhook) (id : String)
    (md : Metadata) : List StripeWebhook :=
  remote.map fun w => if w.id == id then { w with metadata := md } else w

/-- The metadata written when a webhook is soft-marked,
`\x7b...webhook.metadata, toBeDeleted: "true"\x7d`
(src/src/ServerlessStripe.ts:618): every existing entry is kept and
`toBeDeleted` is set to `"true"` (consing it first makes it override any old
entry under first-match lookup). -/
def markMetadata (md : Metadata) : Metadata :=
  ("toBeDeleted", "true") :: md

/-- The per-account configuration and external collaborators of one
`ServerlessStripe` instance: stage, service, account id, the domain-manager
config, the function-definition collaborator, and the provider's webhook
creation oracle handing out `(fresh id, one-time secret)` pairs. -/
structure StripeCtx where
  stage : String
  service : String
  accountId : String
  domainName : String
  basePath : String
  functions : List (String × WebhookFunction)
  oracle : Nat → String × Option String

/-- The mutable state threaded through `createStripeWebhooks`: the account's
webhook list, the secret store, the environment writes
`(functionName, variable, value)` performed so far, the
`webhooksCreatedOrUpdated` accumulator, and how many creations have happened
(indexing the oracle). -/
structure StepState where
  remote : List StripeWebhook
  ssm : SsmStore
  env : List (String × String × String)
  createdOrUpdated : List StripeWebhook
  counter : Nat
deriving DecidableEq

/-- The create branch of `createStripeWebhooks` (src/src/ServerlessStripe.ts:581):
create the endpoint from the computed params, throw when the provider returns no
(or an empty) secret, store the secret under the deterministic key with
`Overwrite: true`, and record the secret as the value to publish. -/
def createWebhookStep (ctx : StripeCtx) (wc : WebhookConfig)
    (webhookUrl : String) (mdParams : WebhookMetadata) (st : StepState) :
    Except String StepState :=
  let idAndSecret := ctx.oracle st.counter
  let newHook : StripeWebhook :=
    { id := idAndSecret.1, url := webhookUrl, enabled_events := wc.events,
      metadata := mdParams.toMetadata }
  if !jsTruthy idAndSecret.2 then
    .error ("Webhook " ++ newHook.id ++ " secret is missing")
  else
    match getSsmParameterName ctx.accountId mdParams with
    | .error e => .error e
    | .ok paramName =>
      let secret := idAndSecret.2.getD ""
      .ok { remote := st.remote ++ [newHook],
            ssm := (paramName, SsmEntry.val secret) :: st.ssm,
            env := st.env ++ [(wc.functionName, wc.webhookSecretEnvVariableName, secret)],
            createdOrUpdated := st.createdOrUpdated ++ [newHook],
            counter := st.counter + 1 }

/-- One iteration of the `for (const webhookConfig of this.webhooks)` loop of
`createStripeWebhooks` (src/src/ServerlessStripe.ts:521).  In order: the
function must exist (the source's `!events` test can never fire because an
array — even an empty one — is truthy, so it is not modelled);
`webhookSecretEnvVariableName` must be truthy; the webhook URL is computed; the
owned remote match is looked up by `metadata.lambda`.  Without a match the
endpoint is created outright.  With a match the secret store is consulted:
`ParameterNotFound` or a missing/empty value routes to the create branch
(self-healing), any other store failure is rethrown unchanged, and otherwise the
endpoint is updated in place and the stored secret is kept.  Note the source
pushes the *original* listed object onto `webhooksCreatedOrUpdated` in the
update branch. -/
def processWebhook (ctx : StripeCtx) (webhooksBefore : List StripeWebhook)
    (st : StepState) (wc : WebhookConfig) : Except String StepState :=
  match ctx.functions.lookup wc.functionName with
  | none => .error ("Function " ++ wc.functionName ++ " not found")
  | some webhookFunction =>
    if wc.webhookSecretEnvVariableName = "" then
      .error "webhookSecretEnvVariableName is required"
    else
      match getWebhookUrl ctx.domainName ctx.basePath ctx.accountId webhookFunction with
      | .error e => .error e
      | .ok webhookUrl =>
        let mdParams := getWebhookMetadata wc.functionName ctx.stage ctx.service
        match webhooksBefore.find? (fun hook =>
            mdGet hook.metadata "lambda" == some wc.functionName) with
        | none => createWebhookStep ctx wc webhookUrl mdParams st
        | some webhook =>
          match getSsmParameterName ctx.accountId mdParams with
          | .error e => .error e
          | .ok paramName =>
            match st.ssm.lookup paramName with
            | some (SsmEntry.fault e) => .error e
            | some (SsmEntry.val s) =>
              if s = "" then
                createWebhookStep ctx wc webhookUrl mdParams st
              else
                .ok { st with
                  remote := updateRemote st.remote webhook.id webhookUrl wc.events
                    mdParams.toMetadata,
                  env := st.env ++
                    [(wc.functionName, wc.webhookSecretEnvVariableName, s)],
                  createdOrUpdated := st.createdOrUpdated ++ [webhook] }
            | some SsmEntry.novalue =>
              createWebhookStep ctx wc webhookUrl mdParams st
            | none =>
              createWebhookStep ctx wc webhookUrl mdParams st

/-- The whole declared-webhook loop, propagating the first failure. -/
def processAll (ctx : StripeCtx) (webhooksBefore : List StripeWebhook) :
    List WebhookConfig → StepState → Except String StepState
  | [], st => .ok st
  | wc :: rest, st =>
    match processWebhook ctx webhooksBefore st wc with
    | .error e => .error e
    | .ok st' => processAll ctx webhooksBefore rest st'

/-- Embeds `createStripeWebhooks` (src/src/ServerlessStripe.ts:516): list the
owned webhooks once, run the declared-webhook loop, then soft-mark every listed
owned webhook whose id was not created or updated by writing the spread
metadata with `toBeDeleted: "true"` — nothing is deleted in this pass. -/
def createStripeWebhooks (ctx : StripeCtx) (webhooks : List WebhookConfig)
    (remote : List StripeWebhook) (ssm : SsmStore) : Except String StepState :=
  let webhooksBefore := remote.filter fun w =>
    isStripeEntityManagedByThisStack ctx.service ctx.stage w.metadata
  match processAll ctx webhooksBefore webhooks
      { remote := remote, ssm := ssm, env := [], createdOrUpdated := [],
        counter := 0 } with
  | .error e => .error e
  | .ok st =>
    let webhooksToBeDeleted := webhooksBefore.filter fun w =>
      !(st.createdOrUpdated.any fun wc => wc.id == w.id)
    .ok { st with
      remote := webhooksToBeDeleted.foldl
        (fun r w => updateRemoteMetadata r w.id (markMetadata w.metadata))
        st.remote }

/-- The `DeletedWebhook` summary record (src/src/ServerlessStripe.ts:27). -/
structure DeletedWebhook where
  webhookId : String
  url : String
  lambda : Option String
deriving DecidableEq

/-- What the post-deploy sweep leaves behind and reports. -/
structure SweepResult where
  remote : List StripeWebhook
  webhooksDeleted : List DeletedWebhook
  activeWebhooks : List StripeWebhook
deriving DecidableEq

/-- Embeds `removeWebhooksNotInConfig` (src/src/ServerlessStripe.ts:300): list
the owned webhooks, keep as active those without a truthy `toBeDeleted` tag,
take as marked the owned ones with no active webhook of the same id, hard-delete
every marked one from the account, and report the deletions together with the
active list (which `deploymentSummary` prints). -/
def removeWebhooksNotInConfig (service stage : String)
    (remote : List StripeWebhook) : SweepResult :=
  let allWebhooks := remote.filter fun w =>
    isStripeEntityManagedByThisStack service stage w.metadata
  let activeWebhooks := allWebhooks.filter fun w =>
    !(jsTruthy (mdGet w.metadata "toBeDeleted"))
  let webhooksMarkedForDeletion := allWebhooks.filter fun w =>
    !(activeWebhooks.any fun wc => wc.id == w.id)
  { remote := webhooksMarkedForDeletion.foldl
      (fun r w => r.filter fun v => !(v.id == w.id)) remote,
    webhooksDeleted := webhooksMarkedForDeletion.map fun w =>
      { webhookId := w.id, url := w.url, lambda := mdGet w.metadata "lambda" },
    activeWebhooks := activeWebhooks }

/-- A declared price, the `StripePriceConfig` of `src/src/types.ts:10` with the
spec's optional `interval` (a missing interval is `none`); `price` is the
integer minor-unit amount. -/
structure StripePriceConfig where
  id : String
  price : Int
  currency : String
  interval : Option String
  countryCode : String
deriving DecidableEq

/-- A remote price as the reconciler reads it: opaque id, metadata, nullable
`unit_amount`, `currency`, and `recurring?.interval`. -/
structure StripePrice where
  id : String
  metadata : Metadata
  unit_amount : Option Int
  currency : String
  recurring : Option String
deriving DecidableEq

/-- Embeds `findMatchingPrice` (src/src/ServerlessStripe.ts:352): the first
remote price agreeing on the ownership tags, `metadata.country`, `unit_amount`,
`currency` and `recurring?.interval`; the declared local `id` is not consulted. -/
def findMatchingPrice (stage service : String) (priceConfig : StripePriceConfig)
    (prices : List StripePrice) : Option StripePrice :=
  prices.find? fun price =>
    mdGet price.metadata "stage" == some stage &&
    mdGet price.metadata "service" == some service &&
    mdGet price.metadata "managedBy" == some pluginName &&
    mdGet price.metadata "country" == some priceConfig.countryCode &&
    price.unit_amount == some priceConfig.price &&
    price.currency == priceConfig.currency &&
    price.recurring == priceConfig.interval

/-- The remote price created from `priceParams`
(src/src/ServerlessStripe.ts:417): ownership metadata plus country, the declared
amount and currency, and `recurring` only when the declared interval is truthy. -/
def mkCreatedPrice (stage service : String) (priceConfig : StripePriceConfig)
    (newId : String) : StripePrice :=
  { id := newId,
    metadata := [("stage", stage), ("service", service),
      ("managedBy", pluginName), ("country", priceConfig.countryCode)],
    unit_amount := some priceConfig.price,
    currency := priceConfig.currency,
    recurring := if jsTruthy priceConfig.interval then priceConfig.interval
      else none }

/-- The state of the `for (const priceConfig of productConfig.prices)` loop:
prices created so far, the `pricesForProduct` accumulator, the environment
writes `priceConfig.id := price.id`, and the index for fresh provider ids. -/
structure PriceLoopState where
  created : List StripePrice
  pricesForProduct : List StripePrice
  env : List (String × String)
  counter : Nat
deriving DecidableEq

/-- Embeds the per-price loop of `createStripeProducts`
(src/src/ServerlessStripe.ts:399): the product's remote price list
`pricesData` is fetched once before the loop and never refreshed; each declared
price is matched against that fixed list, reusing the match's id on a hit and
otherwise creating a new price (with a provider-supplied fresh id). -/
def createPricesForProduct (stage service : String) (supply : Nat → String)
    (pricesData : List StripePrice) :
    List StripePriceConfig → PriceLoopState → PriceLoopState
  | [], st => st
  | priceConfig :: rest, st =>
    match findMatchingPrice stage service priceConfig pricesData with
    | some existingPrice =>
      createPricesForProduct stage service supply pricesData rest
        { st with
          pricesForProduct := st.pricesForProduct ++ [existingPrice],
          env := st.env ++ [(priceConfig.id, existingPrice.id)] }
    | none =>
      let price := mkCreatedPrice stage service priceConfig (supply st.counter)
      createPricesForProduct stage service supply pricesData rest
        { created := st.created ++ [price],
          pricesForProduct := st.pricesForProduct ++ [price],
          env := st.env ++ [(priceConfig.id, price.id)],
          counter := st.counter + 1 }

/-- The `internal` block of a declared product (src/src/types.ts:20). -/
structure ProductInternal where
  id : String
  description : String
deriving DecidableEq

/-- A declared product, the `StripeProductConfig` of `src/src/types.ts:18`. -/
structure StripeProductConfig where
  name : String
  internal : ProductInternal
  prices : List StripePriceConfig
deriving DecidableEq

/-- The test of the regex `^[a-zA-Z]([a-zA-Z0-9_])+$`
(src/src/ServerlessStripe.ts:215): a letter followed by at least one character
from `[a-zA-Z0-9_]`. -/
def idRegexTest (s : String) : Bool :=
  match s.data with
  | [] => false
  | c :: rest => c.isAlpha && !rest.isEmpty &&
      rest.all fun d => d.isAlphanum || d == '_'

/-- The inner price checks of `validateProductAndPriceConfigs`
(src/src/ServerlessStripe.ts:223).  Each `if (!field)` is a JavaScript
falsiness test: for the strings it fires on `""`, and for the numeric `price`
it fires exactly on the amount `0`. -/
def validatePrices : List StripePriceConfig → Except String Unit
  | [] => .ok ()
  | price :: rest =>
    if price.id = "" then .error "Price id is required"
    else if price.price = 0 then .error "Price price is required"
    else if price.currency = "" then .error "Price currency is required"
    else if price.countryCode = "" then .error "Price countryCode is required"
    else validatePrices rest

/-- The per-product checks of `validateProductAndPriceConfigs`
(src/src/ServerlessStripe.ts:200).  The source's `!product.internal` guard
cannot fire here because `internal` is a structure field. -/
def validateProductsLoop : List StripeProductConfig → Except String Unit
  | [] => .ok ()
  | product :: rest =>
    if product.name = "" then .error "Product name is required"
    else if product.internal.id = "" then .error "Product internal.id is required"
    else if product.internal.description = "" then
      .error "Product internal.description is required"
    else if !idRegexTest product.internal.id then
      .error ("Product internal.id " ++ product.internal.id ++
        " does not match regex")
    else
      match validatePrices product.prices with
      | .error e => .error e
      | .ok _ => validateProductsLoop rest

/-- Embeds `validateProductAndPriceConfigs` (src/src/ServerlessStripe.ts:199):
the per-product loop, then the duplicate-internal-id check via set
deduplication. -/
def validateProductAndPriceConfigs (products : List StripeProductConfig) :
    Except String Unit :=
  match validateProductsLoop products with
  | .error e => .error e
  | .ok _ =>
    let internalIds := products.map fun p => p.internal.id
    if internalIds.length ≠ internalIds.dedup.length then
      .error "Product internal ids must be unique"
    else .ok ()

/-- The `customDomain` collaborator config (src/src/types.ts:47). -/
structure CustomDomain where
  domainName : String
  basePath : String
deriving DecidableEq

/-- The `for (const webhook of this.webhooks)` key pre-check of
`validateWebhookConfigs` (src/src/ServerlessStripe.ts:194): construct each
webhook's secret-store key and propagate the first failure. -/
def checkSsmParameterNames (accountId stage service : String) :
    List WebhookConfig → Except String Unit
  | [] => .ok ()
  | wc :: rest =>
    match getSsmParameterName accountId
        (getWebhookMetadata wc.functionName stage service) with
    | .error e => .error e
    | .ok _ => checkSsmParameterNames accountId stage service rest

/-- Embeds `validateWebhookConfigs` (src/src/ServerlessStripe.ts:162): the
domain-manager config and its two fields must be present, function names must
be unique, and every webhook's secret-store key must construct without error.
This runs inside `validateConfigExists`, before any remote call is issued (the
whole function is pure).  The source's `!this.webhooks` test is on an array and
only fires when the field is absent altogether; it is not modelled. -/
def validateWebhookConfigs (accountId stage service : String)
    (customDomain : Option CustomDomain) (webhooks : List WebhookConfig) :
    Except String Unit :=
  match customDomain with
  | none => .error (pluginName ++ ": Serverless Domain Manager required")
  | some cd =>
    if cd.domainName = "" then
      .error (pluginName ++ ": 'domainName' is required in 'customDomain' config")
    else if cd.basePath = "" then
      .error (pluginName ++ ": 'basePath' is required in 'customDomain' config")
    else
      let functionNames := webhooks.map fun w => w.functionName
      if functionNames.length ≠ functionNames.dedup.length then
        .error "Function names must be unique"
      else checkSsmParameterNames accountId stage service webhooks

/-- An item of a paginated remote listing; the paginator reads only its id. -/
structure RemoteItem where
  id : String
deriving DecidableEq

/-- Embeds the recursive fetch shared by `getAllPortalsFromStripe`
(src/src/billingPortal.ts:4) and `getAllProductsFromStripe`
(src/unnamed/part_001): request a page of (at most) 100 items starting after
the cursor, append it to the accumulator, and when `has_more` holds recurse
with the last returned item's id as the new cursor.  The source recursion has
no structural bound, so the embedding carries fuel; reading the last item of an
empty page is the source's undefined-property crash. -/
def getAllFromStripe (listFn : Nat → Option String → List RemoteItem × Bool) :
    Nat → Option String → List RemoteItem → Except String (List RemoteItem)
  | 0, _, _ => .error "out of fuel"
  | fuel + 1, startingAfter, acc =>
    let response := listFn 100 startingAfter
    let all := acc ++ response.1
    if response.2 then
      match response.1.getLast? with
      | none => .error "cannot read property id of undefined"
      | some lastItem => getAllFromStripe listFn fuel (some lastItem.id) all
    else
      .ok all

/-- A finite page chain of a listing capability: starting from the given
cursor, each request with page size 100 returns the next page with
`hasMore = true` (and a non-empty page, whose last item's id is the next
cursor) until the final page returns `hasMore = false`. -/
def isPageChain (listFn : Nat → Option String → List RemoteItem × Bool) :
    Option String → List (List RemoteItem) → Bool
  | _, [] => false
  | cursor, [p] => listFn 100 cursor == (p, false)
  | cursor, p :: q :: rest =>
    listFn 100 cursor == (p, true) &&
      match p.getLast? with
      | none => false
      | some lastItem => isPageChain listFn (some lastItem.id) (q :: rest)

/-! Helper lemmas about metadata lookup and marking. -/

theorem mdGet_cons (k v k' : String) (md : Metadata) :
    mdGet ((k, v) :: md) k' = if k' == k then some v else mdGet md k' := by
  by_cases h : k' = k
  · simp [mdGet, List.lookup, h]
  · have hb : (k' == k) = false := beq_eq_false_iff_ne.mpr h
    simp [mdGet, List.lookup, hb, h]

theorem mdGet_markMetadata_tag (md : Metadata) :
    mdGet (markMetadata md) "toBeDeleted" = some "true" := by
  simp [markMetadata, mdGet_cons]

theorem mdGet_markMetadata_other (md : Metadata) (k : String)
    (h : k ≠ "toBeDeleted") : mdGet (markMetadata md) k = mdGet md k := by
  simp [markMetadata, mdGet_cons, h]

theorem isManaged_markMetadata (service stage : String) (md : Metadata) :
    isStripeEntityManagedByThisStack service stage (markMetadata md) =
      isStripeEntityManagedByThisStack service stage md := by
  simp [isStripeEntityManagedByThisStack,
    mdGet_markMetadata_other md "managedBy" (by decide),
    mdGet_markMetadata_other md "service" (by decide),
    mdGet_markMetadata_other md "stage" (by decide)]

/-- Claim C8: when `createStripeWebhooks` soft-marks an untouched owned webhook
the written metadata is the old bag with only the additional entry
`toBeDeleted: "true"`: every other key reads unchanged, ownership is preserved,
and the marked webhook is still found by the post-deploy sweep's
ownership-filtered listing. -/
theorem mark_for_deletion_frame (md : Metadata) (service stage : String) :
    mdGet (markMetadata md) "toBeDeleted" = some "true" ∧
    (∀ k, k ≠ "toBeDeleted" → mdGet (markMetadata md) k = mdGet md k) ∧
    (isStripeEntityManagedByThisStack service stage (markMetadata md) =
      isStripeEntityManagedByThisStack service stage md) ∧
    (∀ (remote : List StripeWebhook) (w : StripeWebhook),
      { w with metadata := markMetadata w.metadata } ∈ remote →
      isStripeEntityManagedByThisStack service stage w.metadata = true →
      { w with metadata := markMetadata w.metadata } ∈
        remote.filter fun v =>
          isStripeEntityManagedByThisStack service stage v.metadata) := by
  refine ⟨mdGet_markMetadata_tag md, fun k hk => mdGet_markMetadata_other md k hk,
    isManaged_markMetadata service stage md, fun remote w hmem howned => ?_⟩
  refine List.mem_filter.mpr ⟨hmem, ?_⟩
  simpa [isManaged_markMetadata] using howned

/-- Witness for C8 at a concrete metadata bag, key and webhook list. -/
theorem mark_for_deletion_frame_witness :
    ("lambda" : String) ≠ "toBeDeleted" ∧
    mdGet (markMetadata [("lambda", "X"), ("stage", "dev")]) "lambda" =
      mdGet [("lambda", "X"), ("stage", "dev")] "lambda" := by
  exact ⟨by decide,
    (mark_for_deletion_frame [("lambda", "X"), ("stage", "dev")] "svc" "dev").2.1
      "lambda" (by decide)⟩

/-- Claim C6: a declared webhook whose target function is missing makes
reconciliation fail with `Function ... not found`; a target function without an
HTTP POST event fails with `... does not have an HTTP POST event`; and when the
first HTTP POST event with path `p` exists the computed webhook URL is exactly
`https://{domainName}/{basePath}{p}?stripeAccountKey={accountId}` (the account
discriminator query parameter is always appended). -/
theorem webhook_url_computation (ctx : StripeCtx) (wb : List StripeWebhook)
    (st : StepState) (wc : WebhookConfig) :
    (ctx.functions.lookup wc.functionName = none →
      processWebhook ctx wb st wc =
        .error ("Function " ++ wc.functionName ++ " not found")) ∧
    (∀ f, ctx.functions.lookup wc.functionName = some f →
      wc.webhookSecretEnvVariableName ≠ "" →
      ((f.events.findSome? (fun e => match e with
          | FnEvent.httpEv m p => if m == "post" then some p else none
          | _ => none) = none →
        processWebhook ctx wb st wc =
          .error ("Function " ++ f.name ++ " does not have an HTTP POST event")) ∧
       (∀ path, f.events.findSome? (fun e => match e with
          | FnEvent.httpEv m p => if m == "post" then some p else none
          | _ => none) = some path →
        getWebhookUrl ctx.domainName ctx.basePath ctx.accountId f =
          .ok ("https://" ++ ctx.domainName ++ "/" ++ ctx.basePath ++ path ++
            "?stripeAccountKey=" ++ ctx.accountId)))) := by
  refine ⟨fun hnone => ?_, fun f hf hvar => ⟨fun hnopost => ?_, fun path hpost => ?_⟩⟩
  · simp [processWebhook, hnone]
  · simp only [processWebhook, hf]
    rw [if_neg hvar]
    simp only [getWebhookUrl, hnopost]
  · simp only [getWebhookUrl, hpost]

/-- Witness for C6 at a concrete context and declared webhook. -/
theorem webhook_url_computation_witness :
    getWebhookUrl "api.example.com" "v1" "acct1"
        { name := "hook", events := [FnEvent.other, FnEvent.httpEv "post" "/stripe"] } =
      .ok "https://api.example.com/v1/stripe?stripeAccountKey=acct1" := by
  have h := (webhook_url_computation
    { stage := "dev", service := "svc", accountId := "acct1",
      domainName := "api.example.com", basePath := "v1",
      functions := [("hook",
        { name := "hook", events := [FnEvent.other, FnEvent.httpEv "post" "/stripe"] })],
      oracle := fun _ => ("we_1", some "whsec_1") }
    [] { remote := [], ssm := [], env := [], createdOrUpdated := [], counter := 0 }
    { functionName := "hook", events := ["invoice.paid"],
      webhookSecretEnvVariableName := "SECRET" }).2
    { name := "hook", events := [FnEvent.other, FnEvent.httpEv "post" "/stripe"] }
    (by decide) (by decide)
  exact h.2 "/stripe" (by decide)

/-! The paginator lemma for C7: along a finite page chain the recursive fetch
returns the accumulator followed by the concatenation of all pages. -/

theorem getAllFromStripe_chain (listFn : Nat → Option String → List RemoteItem × Bool) :
    ∀ (chain : List (List RemoteItem)) (cursor : Option String)
      (acc : List RemoteItem) (fuel : Nat),
    isPageChain listFn cursor chain = true → chain.length ≤ fuel →
    getAllFromStripe listFn fuel cursor acc = .ok (acc ++ chain.flatten) := by
  intro chain
  induction chain with
  | nil => intro cursor acc fuel hchain; simp [isPageChain] at hchain
  | cons p tail ih =>
    intro cursor acc fuel hchain hfuel
    cases fuel with
    | zero => exact absurd hfuel (by simp)
    | succ fuel =>
      cases tail with
      | nil =>
        have hresp : listFn 100 cursor = (p, false) := by
          simpa [isPageChain] using hchain
        simp [getAllFromStripe, hresp]
      | cons q rest =>
        simp only [isPageChain, Bool.and_eq_true, beq_iff_eq] at hchain
        obtain ⟨hresp, hrest⟩ := hchain
        cases hlast : p.getLast? with
        | none => rw [hlast] at hrest; simp at hrest
        | some lastItem =>
          rw [hlast] at hrest
          have hlen : (q :: rest).length ≤ fuel := by
            simp only [List.length_cons] at hfuel ⊢; omega
          have hrec := ih (some lastItem.id) (acc ++ p) fuel hrest hlen
          simp [getAllFromStripe, hresp, hlast, hrec, List.flatten_cons,
            List.append_assoc]

/-- Claim C7: for a listing capability with a finite page chain starting at the
empty cursor, the paginator returns exactly the in-order concatenation of all
pages, requesting page size 100, resuming after the last returned item's id
whenever `hasMore` is true and stopping when it is false. -/
theorem paginator_returns_concatenation
    (listFn : Nat → Option String → List RemoteItem × Bool)
    (chain : List (List RemoteItem)) (fuel : Nat)
    (hchain : isPageChain listFn none chain = true)
    (hfuel : chain.length ≤ fuel) :
    getAllFromStripe listFn fuel none [] = .ok chain.flatten := by
  simpa using getAllFromStripe_chain listFn chain none [] fuel hchain hfuel

/-- Witness for C7 on a concrete two-page listing. -/
theorem paginator_returns_concatenation_witness :
    isPageChain
        (fun _ cursor => match cursor with
          | none => ([⟨"a"⟩, ⟨"b"⟩], true)
          | some "b" => ([⟨"c"⟩], false)
          | some _ => ([], false))
        none [[⟨"a"⟩, ⟨"b"⟩], [⟨"c"⟩]] = true ∧
    getAllFromStripe
        (fun _ cursor => match cursor with
          | none => ([⟨"a"⟩, ⟨"b"⟩], true)
          | some "b" => ([⟨"c"⟩], false)
          | some _ => ([], false))
        2 none [] = .ok ([[⟨"a"⟩, ⟨"b"⟩], [⟨"c"⟩]] : List (List RemoteItem)).flatten := by
  exact ⟨by decide, paginator_returns_concatenation _ _ 2 (by decide) (by decide)⟩

/-! Characterisation of the secret-store key check, for C5. -/


theorem getSsmParameterName_ok_iff (a : String) (m : WebhookMetadata)
    (name : String)
    (hname : name = "stripe-webhook-secret-" ++ a ++ "-" ++ m.service ++ "-" ++
      m.stage ++ "-" ++ m.lambda) :
    (∃ n, getSsmParameterName a m = .ok n) ↔
      (name.data.all isSsmNameChar = true ∧ name.length ≤ 931) := by
  have hlen0 : 0 < name.length := by
    have h22 : ("stripe-webhook-secret-" : String).length = 22 := by decide
    rw [hname]
    simp only [String.length_append]
    omega
  have hne : name.data.isEmpty = false := by
    cases hd : name.data with
    | nil =>
      exfalso
      have h0 : name.length = 0 := by
        show name.data.length = 0
        rw [hd]
        rfl
      omega
    | cons c cs => rfl
  have hunf : getSsmParameterName a m =
      (if !ssmNameMatchesRegex name then
        Except.error ("Ssm parameter name " ++ name ++ " does not match regex")
      else if name.length > 1011 - 80 then
        Except.error ("Ssm parameter name " ++ name ++
          " is too long, max length is 1011 characters")
      else Except.ok name) := by
    rw [hname]; rfl
  rw [hunf]
  by_cases h1 : name.data.all isSsmNameChar = true
  · have hreg : (!ssmNameMatchesRegex name) = false := by
      simp [ssmNameMatchesRegex, hne, h1]
    rw [hreg]
    by_cases h2 : name.length ≤ 931
    · rw [if_neg (by simp), if_neg (by omega : ¬ name.length > 1011 - 80)]
      simp [h1, h2]
    · rw [if_neg (by simp), if_pos (by omega : name.length > 1011 - 80)]
      simp [h2]
  · have h1f : name.data.all isSsmNameChar = false := by
      revert h1
      cases name.data.all isSsmNameChar <;> simp
    have hreg : (!ssmNameMatchesRegex name) = true := by
      simp [ssmNameMatchesRegex, hne, h1f]
    rw [hreg]
    simp [h1]

theorem checkSsmParameterNames_ok_iff (a st sv : String)
    (ws : List WebhookConfig) :
    checkSsmParameterNames a st sv ws = .ok () ↔
      ∀ wc ∈ ws, ∃ n,
        getSsmParameterName a (getWebhookMetadata wc.functionName st sv) = .ok n := by
  induction ws with
  | nil => simp [checkSsmParameterNames]
  | cons wc rest ih =>
    cases hg : getSsmParameterName a (getWebhookMetadata wc.functionName st sv) with
    | error e =>
      constructor
      · intro h
        simp [checkSsmParameterNames, hg] at h
      · intro h
        obtain ⟨n, hn⟩ := h wc (List.mem_cons_self wc rest)
        rw [hg] at hn
        cases hn
    | ok n =>
      simp [checkSsmParameterNames, hg, ih]

/-- Claim C5: with the domain config present and function names unique,
`validateWebhookConfigs` (run inside the pure pre-flight `validateConfigExists`,
before any remote call) fails exactly when some declared webhook's computed key
`stripe-webhook-secret-{accountId}-{service}-{stage}-{functionName}` contains a
character outside `[a-zA-Z0-9_.-]` or is longer than `1011 - 80 = 931`
characters. -/
theorem ssm_key_validation (accountId stage service : String)
    (cd : CustomDomain) (webhooks : List WebhookConfig)
    (hdn : cd.domainName ≠ "") (hbp : cd.basePath ≠ "")
    (hnodup : (webhooks.map fun w => w.functionName).Nodup) :
    (validateWebhookConfigs accountId stage service (some cd) webhooks ≠ .ok ()) ↔
      ∃ wc ∈ webhooks,
        (∃ c ∈ ("stripe-webhook-secret-" ++ accountId ++ "-" ++ service ++ "-" ++
            stage ++ "-" ++ wc.functionName).data, isSsmNameChar c = false) ∨
        ("stripe-webhook-secret-" ++ accountId ++ "-" ++ service ++ "-" ++
            stage ++ "-" ++ wc.functionName).length > 931 := by
  have hdedup : (webhooks.map fun w => w.functionName).dedup =
      webhooks.map fun w => w.functionName := List.dedup_eq_self.mpr hnodup
  have hval : validateWebhookConfigs accountId stage service (some cd) webhooks =
      checkSsmParameterNames accountId stage service webhooks := by
    simp [validateWebhookConfigs, hdn, hbp, hdedup]
  rw [Ne, hval, checkSsmParameterNames_ok_iff]
  push_neg
  constructor
  · rintro ⟨wc, hwc, hbad⟩
    refine ⟨wc, hwc, ?_⟩
    have hbad' : ¬ ∃ n, getSsmParameterName accountId
        (getWebhookMetadata wc.functionName stage service) = .ok n :=
      not_exists.mpr hbad
    rw [getSsmParameterName_ok_iff accountId
      (getWebhookMetadata wc.functionName stage service)
      ("stripe-webhook-secret-" ++ accountId ++ "-" ++ service ++ "-" ++
        stage ++ "-" ++ wc.functionName) rfl] at hbad'
    rcases Decidable.not_and_iff_or_not.mp hbad' with h | h
    · left
      simp only [List.all_eq_true, not_forall] at h
      obtain ⟨c, hc, hcp⟩ := h
      exact ⟨c, hc, by simpa using hcp⟩
    · right
      omega
  · rintro ⟨wc, hwc, hbad⟩
    refine ⟨wc, hwc, ?_⟩
    intro n hn
    have hok : ∃ n', getSsmParameterName accountId
        (getWebhookMetadata wc.functionName stage service) = .ok n' := ⟨n, hn⟩
    rw [getSsmParameterName_ok_iff accountId
      (getWebhookMetadata wc.functionName stage service)
      ("stripe-webhook-secret-" ++ accountId ++ "-" ++ service ++ "-" ++
        stage ++ "-" ++ wc.functionName) rfl] at hok
    obtain ⟨hall, hlen⟩ := hok
    rcases hbad with ⟨c, hc, hcp⟩ | h
    · rw [List.all_eq_true] at hall
      rw [hall c hc] at hcp
      cases hcp
    · omega

/-- Witness for C5: a function name containing a space makes validation fail,
and the characterisation applies at this concrete configuration. -/
theorem ssm_key_validation_witness :
    (("d" : String) ≠ "") ∧
    ((validateWebhookConfigs "acct1" "dev" "svc"
        (some (CustomDomain.mk "d" "b")) [WebhookConfig.mk "my fn" ["e"] "V"] ≠
      .ok ()) ↔
      ∃ wc ∈ [WebhookConfig.mk "my fn" ["e"] "V"],
        (∃ c ∈ ("stripe-webhook-secret-" ++ "acct1" ++ "-" ++ "svc" ++ "-" ++
            "dev" ++ "-" ++ wc.functionName).data, isSsmNameChar c = false) ∨
        ("stripe-webhook-secret-" ++ "acct1" ++ "-" ++ "svc" ++ "-" ++
            "dev" ++ "-" ++ wc.functionName).length > 931) := by
  exact ⟨by decide,
    ssm_key_validation "acct1" "dev" "svc" (CustomDomain.mk "d" "b")
      [WebhookConfig.mk "my fn" ["e"] "V"] (by decide) (by decide) (by decide)⟩

/-! Lemmas about product/price validation, for C10. -/

theorem validatePrices_ok_no_zero (l : List StripePriceConfig)
    (h : validatePrices l = .ok ()) : ∀ pc ∈ l, pc.price ≠ 0 := by
  induction l with
  | nil => simp
  | cons pc rest ih =>
    simp only [validatePrices] at h
    split_ifs at h with h1 h2 h3 h4
    intro pc' hpc'
    rcases List.mem_cons.mp hpc' with rfl | hmem
    · exact h2
    · exact ih h pc' hmem

theorem validateProductsLoop_ok_prices (l : List StripeProductConfig)
    (h : validateProductsLoop l = .ok ()) :
    ∀ p ∈ l, validatePrices p.prices = .ok () := by
  induction l with
  | nil => simp
  | cons p rest ih =>
    simp only [validateProductsLoop] at h
    split_ifs at h with h1 h2 h3 h4
    intro p' hp'
    rcases List.mem_cons.mp hp' with rfl | hmem
    · cases hv : validatePrices p'.prices with
      | error e => rw [hv] at h; cases h
      | ok u => rfl
    · cases hv : validatePrices p.prices with
      | error e => rw [hv] at h; cases h
      | ok u => rw [hv] at h; exact ih h p' hmem

/-- Claim C10: the required-amount check of `validateProductAndPriceConfigs` is
a JavaScript falsiness test, so a declared price with the integer amount `0` is
rejected with `Price price is required` (here shown when it heads an otherwise
well-formed product's price list), and no configuration containing a
zero-amount price ever passes the validation gate. -/
theorem zero_amount_price_rejected :
    (∀ (p : StripeProductConfig) (pc : StripePriceConfig)
       (rest : List StripePriceConfig) (ps : List StripeProductConfig),
       p.name ≠ "" → p.internal.id ≠ "" → p.internal.description ≠ "" →
       idRegexTest p.internal.id = true → p.prices = pc :: rest → pc.id ≠ "" →
       pc.price = 0 →
       validateProductAndPriceConfigs (p :: ps) =
         .error "Price price is required") ∧
    (∀ products : List StripeProductConfig,
       validateProductAndPriceConfigs products = .ok () →
       ∀ p ∈ products, ∀ pc ∈ p.prices, pc.price ≠ 0) := by
  constructor
  · intro p pc rest ps hname hiid hdesc hreg hprices hpcid hzero
    have h1 : validatePrices (pc :: rest) = .error "Price price is required" := by
      simp only [validatePrices]
      rw [if_neg hpcid, if_pos hzero]
    have h2 : validateProductsLoop (p :: ps) = .error "Price price is required" := by
      simp only [validateProductsLoop]
      rw [if_neg hname, if_neg hiid, if_neg hdesc,
        if_neg (by simp [hreg]), hprices, h1]
    simp [validateProductAndPriceConfigs, h2]
  · intro products hok p hp pc hpc
    cases hloop : validateProductsLoop products with
    | error e =>
      rw [validateProductAndPriceConfigs, hloop] at hok
      cases hok
    | ok u =>
      exact validatePrices_ok_no_zero p.prices
        (validateProductsLoop_ok_prices products hloop p hp) pc hpc

/-- Witness for C10 on a concrete product with a zero-amount price. -/
theorem zero_amount_price_rejected_witness :
    validateProductAndPriceConfigs
        [StripeProductConfig.mk "Sub" (ProductInternal.mk "sub_id" "desc")
          [StripePriceConfig.mk "price_free" 0 "eur" (some "month") "DE"]] =
      .error "Price price is required" := by
  exact zero_amount_price_rejected.1
    (StripeProductConfig.mk "Sub" (ProductInternal.mk "sub_id" "desc")
      [StripePriceConfig.mk "price_free" 0 "eur" (some "month") "DE"])
    (StripePriceConfig.mk "price_free" 0 "eur" (some "month") "DE") [] []
    (by decide) (by decide) (by decide) (by decide) rfl (by decide) rfl

/-! Lemmas about price matching, for C3 and C9. -/

theorem findMatchingPrice_append (stage service : String)
    (c : StripePriceConfig) (ps qs : List StripePrice) :
    findMatchingPrice stage service c (ps ++ qs) =
      (findMatchingPrice stage service c ps).or
        (findMatchingPrice stage service c qs) := by
  simp [findMatchingPrice, List.find?_append]

theorem findMatchingPrice_created (stage service : String)
    (c : StripePriceConfig) (i : String)
    (hwf : c.interval = none ∨ jsTruthy c.interval = true) :
    findMatchingPrice stage service c [mkCreatedPrice stage service c i] =
      some (mkCreatedPrice stage service c i) := by
  rcases hwf with h | h
  · simp [findMatchingPrice, mkCreatedPrice, List.find?, mdGet_cons, h]
  · simp [findMatchingPrice, mkCreatedPrice, List.find?, mdGet_cons, h]

/-- Claim C3: price matching uses exactly the identity tuple (stage, service,
managedBy tag, country, amount, currency, interval) and never the declared
local id; two declared prices differing only in `interval` both get created
(and the second cannot even match the first's created price); and a second
run over an unchanged declared price resolves to the previously created
price's id without creating anything. -/
theorem price_matching_tuple_semantics :
    (∀ (stage service : String) (c : StripePriceConfig) (ps : List StripePrice)
       (i : String),
       findMatchingPrice stage service { c with id := i } ps =
         findMatchingPrice stage service c ps) ∧
    (∀ (stage service : String) (c : StripePriceConfig)
       (ps : List StripePrice),
       (findMatchingPrice stage service c ps).isSome = true ↔
         ∃ p ∈ ps, mdGet p.metadata "stage" = some stage ∧
           mdGet p.metadata "service" = some service ∧
           mdGet p.metadata "managedBy" = some pluginName ∧
           mdGet p.metadata "country" = some c.countryCode ∧
           p.unit_amount = some c.price ∧ p.currency = c.currency ∧
           p.recurring = c.interval) ∧
    (∀ (stage service : String) (supply : Nat → String)
       (c1 c2 : StripePriceConfig) (ps : List StripePrice) (n : Nat),
       findMatchingPrice stage service c1 ps = none →
       findMatchingPrice stage service c2 ps = none →
       jsTruthy c1.interval = true → c1.interval ≠ c2.interval →
       (createPricesForProduct stage service supply ps [c1, c2]
           (PriceLoopState.mk [] [] [] n)).created =
         [mkCreatedPrice stage service c1 (supply n),
          mkCreatedPrice stage service c2 (supply (n + 1))] ∧
       findMatchingPrice stage service c2
           (ps ++ [mkCreatedPrice stage service c1 (supply n)]) = none) ∧
    (∀ (stage service : String) (supply supply2 : Nat → String)
       (c : StripePriceConfig) (ps : List StripePrice) (n m : Nat),
       findMatchingPrice stage service c ps = none →
       (c.interval = none ∨ jsTruthy c.interval = true) →
       createPricesForProduct stage service supply ps [c]
           (PriceLoopState.mk [] [] [] n) =
         PriceLoopState.mk [mkCreatedPrice stage service c (supply n)]
           [mkCreatedPrice stage service c (supply n)]
           [(c.id, (mkCreatedPrice stage service c (supply n)).id)] (n + 1) ∧
       createPricesForProduct stage service supply2
           (ps ++ [mkCreatedPrice stage service c (supply n)]) [c]
           (PriceLoopState.mk [] [] [] m) =
         PriceLoopState.mk [] [mkCreatedPrice stage service c (supply n)]
           [(c.id, (mkCreatedPrice stage service c (supply n)).id)] m) := by
  refine ⟨fun stage service c ps i => rfl, fun stage service c ps => ?_,
    fun stage service supply c1 c2 ps n hm1 hm2 htr hne => ⟨?_, ?_⟩,
    fun stage service supply supply2 c ps n m hm hwf => ⟨?_, ?_⟩⟩
  · rw [findMatchingPrice, List.find?_isSome]
    constructor
    · rintro ⟨p, hp, hpred⟩
      refine ⟨p, hp, ?_⟩
      simp only [Bool.and_eq_true, beq_iff_eq] at hpred
      obtain ⟨⟨⟨⟨⟨⟨h1, h2⟩, h3⟩, h4⟩, h5⟩, h6⟩, h7⟩ := hpred
      exact ⟨h1, h2, h3, h4, h5, h6, h7⟩
    · rintro ⟨p, hp, h1, h2, h3, h4, h5, h6, h7⟩
      refine ⟨p, hp, ?_⟩
      simp only [Bool.and_eq_true, beq_iff_eq]
      exact ⟨⟨⟨⟨⟨⟨h1, h2⟩, h3⟩, h4⟩, h5⟩, h6⟩, h7⟩
  · simp [createPricesForProduct, hm1, hm2]
  · rw [findMatchingPrice_append, hm2]
    have hfalse : (mkCreatedPrice stage service c1 (supply n)).recurring ≠
        c2.interval := by
      simpa [mkCreatedPrice, htr] using hne
    have hbeq : ((mkCreatedPrice stage service c1 (supply n)).recurring ==
        c2.interval) = false := beq_eq_false_iff_ne.mpr hfalse
    simp only [Option.none_or]
    simp [findMatchingPrice, List.find?, hbeq]
  · simp [createPricesForProduct, hm]
  · have happ : findMatchingPrice stage service c
        (ps ++ [mkCreatedPrice stage service c (supply n)]) =
        some (mkCreatedPrice stage service c (supply n)) := by
      rw [findMatchingPrice_append, hm, Option.none_or,
        findMatchingPrice_created stage service c (supply n) hwf]
    simp [createPricesForProduct, happ]

/-- Witness for C3: two declared prices differing only in interval, run against
an empty remote price list, are both created. -/
theorem price_matching_tuple_semantics_witness :
    jsTruthy (StripePriceConfig.mk "pm" 9900 "sek" (some "month") "SE").interval
      = true ∧
    (createPricesForProduct "dev" "svc" (fun k => if k = 0 then "p0" else "p1")
        [] [StripePriceConfig.mk "pm" 9900 "sek" (some "month") "SE",
            StripePriceConfig.mk "py" 9900 "sek" (some "year") "SE"]
        (PriceLoopState.mk [] [] [] 0)).created =
      [mkCreatedPrice "dev" "svc"
        (StripePriceConfig.mk "pm" 9900 "sek" (some "month") "SE") "p0",
       mkCreatedPrice "dev" "svc"
        (StripePriceConfig.mk "py" 9900 "sek" (some "year") "SE") "p1"] := by
  refine ⟨by decide, ?_⟩
  have h := (price_matching_tuple_semantics.2.2.1 "dev" "svc"
    (fun k => if k = 0 then "p0" else "p1")
    (StripePriceConfig.mk "pm" 9900 "sek" (some "month") "SE")
    (StripePriceConfig.mk "py" 9900 "sek" (some "year") "SE") [] 0
    rfl rfl (by decide) (by decide))
  exact h.1

/-- Claim C9: two declared prices with an identical identity tuple under one
product are both created in a single run, because the remote price list is
fetched once before the loop and never refreshed, so the second entry cannot
match the price created for the first. -/
theorem duplicate_price_tuple_double_creation (stage service : String)
    (supply : Nat → String) (c : StripePriceConfig) (ps : List StripePrice)
    (n : Nat) (hm : findMatchingPrice stage service c ps = none) :
    (createPricesForProduct stage service supply ps [c, c]
        (PriceLoopState.mk [] [] [] n)).created =
      [mkCreatedPrice stage service c (supply n),
       mkCreatedPrice stage service c (supply (n + 1))] ∧
    (supply n ≠ supply (n + 1) →
      (mkCreatedPrice stage service c (supply n)).id ≠
        (mkCreatedPrice stage service c (supply (n + 1))).id) := by
  constructor
  · simp [createPricesForProduct, hm]
  · intro h
    simpa [mkCreatedPrice] using h

/-- Witness for C9 on a concrete duplicated price config. -/
theorem duplicate_price_tuple_double_creation_witness :
    (createPricesForProduct "dev" "svc" (fun k => if k = 0 then "p0" else "p1")
        [] [StripePriceConfig.mk "dup" 500 "eur" none "FI",
            StripePriceConfig.mk "dup" 500 "eur" none "FI"]
        (PriceLoopState.mk [] [] [] 0)).created =
      [mkCreatedPrice "dev" "svc"
        (StripePriceConfig.mk "dup" 500 "eur" none "FI") "p0",
       mkCreatedPrice "dev" "svc"
        (StripePriceConfig.mk "dup" 500 "eur" none "FI") "p1"] := by
  exact (duplicate_price_tuple_double_creation "dev" "svc"
    (fun k => if k = 0 then "p0" else "p1")
    (StripePriceConfig.mk "dup" 500 "eur" none "FI") [] 0 rfl).1

/-- Claim C2: while reconciling a declared webhook that has an owned remote
match, a secret-store lookup that reports not-found, returns a parameter with
no value, or returns the empty string routes to the create branch, which makes
a new remote webhook and stores exactly the provider's newly issued secret
(failing when the provider returns none); any other store failure is rethrown
unchanged and aborts the whole run; and a non-empty stored value keeps the
existing webhook (updated in place) together with its stored secret. -/
theorem webhook_secret_store_branches (ctx : StripeCtx)
    (wb : List StripeWebhook) (st : StepState) (wc : WebhookConfig)
    (f : WebhookFunction) (u nm : String) (w : StripeWebhook)
    (hfn : ctx.functions.lookup wc.functionName = some f)
    (hvar : wc.webhookSecretEnvVariableName ≠ "")
    (hurl : getWebhookUrl ctx.domainName ctx.basePath ctx.accountId f = .ok u)
    (hfind : wb.find? (fun hook =>
      mdGet hook.metadata "lambda" == some wc.functionName) = some w)
    (hnm : getSsmParameterName ctx.accountId
      (getWebhookMetadata wc.functionName ctx.stage ctx.service) = .ok nm) :
    ((st.ssm.lookup nm = none ∨ st.ssm.lookup nm = some SsmEntry.novalue ∨
        st.ssm.lookup nm = some (SsmEntry.val "")) →
      (jsTruthy (ctx.oracle st.counter).2 = true →
        processWebhook ctx wb st wc = .ok
          (StepState.mk
            (st.remote ++ [StripeWebhook.mk (ctx.oracle st.counter).1 u wc.events
              (getWebhookMetadata wc.functionName ctx.stage ctx.service).toMetadata])
            ((nm, SsmEntry.val ((ctx.oracle st.counter).2.getD "")) :: st.ssm)
            (st.env ++ [(wc.functionName, wc.webhookSecretEnvVariableName,
              (ctx.oracle st.counter).2.getD "")])
            (st.createdOrUpdated ++ [StripeWebhook.mk (ctx.oracle st.counter).1 u
              wc.events
              (getWebhookMetadata wc.functionName ctx.stage ctx.service).toMetadata])
            (st.counter + 1))) ∧
      (jsTruthy (ctx.oracle st.counter).2 = false →
        processWebhook ctx wb st wc =
          .error ("Webhook " ++ (ctx.oracle st.counter).1 ++
            " secret is missing"))) ∧
    (∀ e, st.ssm.lookup nm = some (SsmEntry.fault e) →
      processWebhook ctx wb st wc = .error e ∧
      ∀ rest, processAll ctx wb (wc :: rest) st = .error e) ∧
    (∀ s, st.ssm.lookup nm = some (SsmEntry.val s) → s ≠ "" →
      processWebhook ctx wb st wc = .ok
        { st with
          remote := updateRemote st.remote w.id u wc.events
            (getWebhookMetadata wc.functionName ctx.stage ctx.service).toMetadata,
          env := st.env ++
            [(wc.functionName, wc.webhookSecretEnvVariableName, s)],
          createdOrUpdated := st.createdOrUpdated ++ [w] }) := by
  have hstep : processWebhook ctx wb st wc =
      (match st.ssm.lookup nm with
      | some (SsmEntry.fault e) => .error e
      | some (SsmEntry.val s) =>
        if s = "" then
          createWebhookStep ctx wc u
            (getWebhookMetadata wc.functionName ctx.stage ctx.service) st
        else
          .ok { st with
            remote := updateRemote st.remote w.id u wc.events
              (getWebhookMetadata wc.functionName ctx.stage ctx.service).toMetadata,
            env := st.env ++
              [(wc.functionName, wc.webhookSecretEnvVariableName, s)],
            createdOrUpdated := st.createdOrUpdated ++ [w] }
      | some SsmEntry.novalue =>
        createWebhookStep ctx wc u
          (getWebhookMetadata wc.functionName ctx.stage ctx.service) st
      | none =>
        createWebhookStep ctx wc u
          (getWebhookMetadata wc.functionName ctx.stage ctx.service) st) := by
    simp only [processWebhook, hfn]
    rw [if_neg hvar]
    simp only [hurl, hfind, hnm]
  have hcreate : jsTruthy (ctx.oracle st.counter).2 = true →
      createWebhookStep ctx wc u
        (getWebhookMetadata wc.functionName ctx.stage ctx.service) st = .ok
        (StepState.mk
          (st.remote ++ [StripeWebhook.mk (ctx.oracle st.counter).1 u wc.events
            (getWebhookMetadata wc.functionName ctx.stage ctx.service).toMetadata])
          ((nm, SsmEntry.val ((ctx.oracle st.counter).2.getD "")) :: st.ssm)
          (st.env ++ [(wc.functionName, wc.webhookSecretEnvVariableName,
            (ctx.oracle st.counter).2.getD "")])
          (st.createdOrUpdated ++ [StripeWebhook.mk (ctx.oracle st.counter).1 u
            wc.events
            (getWebhookMetadata wc.functionName ctx.stage ctx.service).toMetadata])
          (st.counter + 1)) := by
    intro htr
    simp [createWebhookStep, htr, hnm]
  have hcreatefail : jsTruthy (ctx.oracle st.counter).2 = false →
      createWebhookStep ctx wc u
        (getWebhookMetadata wc.functionName ctx.stage ctx.service) st =
        .error ("Webhook " ++ (ctx.oracle st.counter).1 ++
          " secret is missing") := by
    intro htr
    simp [createWebhookStep, htr]
  refine ⟨fun hmiss => ⟨fun htr => ?_, fun htr => ?_⟩,
    fun e hfault => ⟨?_, fun rest => ?_⟩, fun s hval hs => ?_⟩
  · rw [hstep]
    rcases hmiss with h | h | h <;> rw [h] <;>
      simp only [if_pos rfl] <;> exact hcreate htr
  · rw [hstep]
    rcases hmiss with h | h | h <;> rw [h] <;>
      simp only [if_pos rfl] <;> exact hcreatefail htr
  · rw [hstep, hfault]
  · have hw : processWebhook ctx wb st wc = .error e := by rw [hstep, hfault]
    simp [processAll, hw]
  · rw [hstep, hval]
    simp [hs]

/-- Witness for C2: with a stored non-empty secret the existing webhook is
updated and the stored secret is published unchanged. -/
theorem webhook_secret_store_branches_witness :
    (processWebhook
        (StripeCtx.mk "dev" "svc" "acct1" "api.example.com" "v1"
          [("X", WebhookFunction.mk "X" [FnEvent.httpEv "post" "/hook"])]
          (fun _ => ("we_2", some "whsec_2")))
        [StripeWebhook.mk "we_1" "https://old" ["e"]
          [("lambda", "X"), ("stage", "dev"), ("service", "svc"),
           ("managedBy", "Serverless Stripe")]]
        (StepState.mk
          [StripeWebhook.mk "we_1" "https://old" ["e"]
            [("lambda", "X"), ("stage", "dev"), ("service", "svc"),
             ("managedBy", "Serverless Stripe")]]
          [("stripe-webhook-secret-acct1-svc-dev-X", SsmEntry.val "s3cr3t")]
          [] [] 0)
        (WebhookConfig.mk "X" ["invoice.paid"] "SECRET")).map
      (fun s => (s.env, s.ssm.length, s.remote.length)) =
      .ok ([("X", "SECRET", "s3cr3t")], 1, 1) := by
  rw [(webhook_secret_store_branches
    (StripeCtx.mk "dev" "svc" "acct1" "api.example.com" "v1"
      [("X", WebhookFunction.mk "X" [FnEvent.httpEv "post" "/hook"])]
      (fun _ => ("we_2", some "whsec_2")))
    [StripeWebhook.mk "we_1" "https://old" ["e"]
      [("lambda", "X"), ("stage", "dev"), ("service", "svc"),
       ("managedBy", "Serverless Stripe")]]
    (StepState.mk
      [StripeWebhook.mk "we_1" "https://old" ["e"]
        [("lambda", "X"), ("stage", "dev"), ("service", "svc"),
         ("managedBy", "Serverless Stripe")]]
      [("stripe-webhook-secret-acct1-svc-dev-X", SsmEntry.val "s3cr3t")]
      [] [] 0)
    (WebhookConfig.mk "X" ["invoice.paid"] "SECRET")
    (WebhookFunction.mk "X" [FnEvent.httpEv "post" "/hook"])
    "https://api.example.com/v1/hook?stripeAccountKey=acct1"
    "stripe-webhook-secret-acct1-svc-dev-X"
    (StripeWebhook.mk "we_1" "https://old" ["e"]
      [("lambda", "X"), ("stage", "dev"), ("service", "svc"),
       ("managedBy", "Serverless Stripe")])
    rfl (by decide) rfl rfl rfl).2.2
    "s3cr3t" rfl (by decide)]
  rfl

/-! Lemmas for C1: an in-place update of the unique webhook satisfying the
ownership filter leaves the filtered listing a singleton with the same id. -/

theorem filter_map_update_single (p : StripeWebhook → Bool)
    (remote : List StripeWebhook) (w : StripeWebhook)
    (g : StripeWebhook → StripeWebhook)
    (hfil : remote.filter p = [w])
    (hids : ∀ v ∈ remote, v.id = w.id → v = w)
    (hgw : p (g w) = true) :
    (remote.map fun v => if v.id == w.id then g v else v).filter p = [g w] := by
  induction remote with
  | nil => simp at hfil
  | cons v rest ih =>
    rw [List.filter_cons] at hfil
    by_cases hpv : p v = true
    · rw [if_pos hpv] at hfil
      injection hfil with h1 h2
      subst h1
      rw [List.map_cons]
      have hfw : (if v.id == v.id then g v else v) = g v := by simp
      rw [hfw, List.filter_cons, if_pos hgw]
      have hnil : (rest.map fun x => if x.id == v.id then g x else x).filter p
          = [] := by
        rw [List.filter_eq_nil_iff]
        intro x hx
        obtain ⟨y, hy, rfl⟩ := List.mem_map.mp hx
        by_cases hyid : y.id = v.id
        · exfalso
          have hyw : y = v := hids y (List.mem_cons_of_mem _ hy) hyid
          have : ¬ p y = true := List.filter_eq_nil_iff.mp h2 y hy
          exact this (hyw ▸ hpv)
        · have hfy : (if y.id == v.id then g y else y) = y := by simp [hyid]
          rw [hfy]
          exact List.filter_eq_nil_iff.mp h2 y hy
      rw [hnil]
    · rw [if_neg hpv] at hfil
      rw [List.map_cons, List.filter_cons]
      have hfv : (if v.id == w.id then g v else v) = v := by
        by_cases hvid : v.id = w.id
        · exfalso
          have hvw : v = w := hids v (List.mem_cons_self v rest) hvid
          have hwmem : w ∈ rest.filter p := by
            rw [hfil]; exact List.mem_singleton.mpr rfl
          exact hpv (hvw ▸ (List.mem_filter.mp hwmem).2)
        · simp [hvid]
      rw [hfv, if_neg hpv]
      exact ih hfil (fun y hy hyid => hids y (List.mem_cons_of_mem _ hy) hyid)

/-- Counterexample to claim C1 as stated: in a stack state with exactly one
owned remote webhook for function `X` but no entry in the secret store,
re-running `createStripeWebhooks` with the same declared configuration takes
the self-healing branch: afterwards two owned webhooks exist (the old one is
only soft-marked), so "exactly one owned webhook with unchanged id" fails. -/
theorem webhook_rerun_missing_secret_creates_second :
    (createStripeWebhooks
        (StripeCtx.mk "dev" "svc" "acct1" "api.example.com" "v1"
          [("X", WebhookFunction.mk "X" [FnEvent.httpEv "post" "/hook"])]
          (fun _ => ("we_2", some "whsec_2")))
        [WebhookConfig.mk "X" ["invoice.paid"] "SECRET"]
        [StripeWebhook.mk "we_1"
          "https://api.example.com/v1/hook?stripeAccountKey=acct1"
          ["invoice.paid"]
          [("lambda", "X"), ("stage", "dev"), ("service", "svc"),
           ("managedBy", "Serverless Stripe")]]
        []).map
      (fun st => (st.remote.filter fun v =>
        isStripeEntityManagedByThisStack "svc" "dev" v.metadata).map
          fun v => v.id) = .ok ["we_1", "we_2"] ∧
    (["we_1", "we_2"] : List String) ≠ ["we_1"] := by
  exact ⟨rfl, by decide⟩

/-- Claim C1 (amended): in a stack state whose owned listing is exactly one
webhook carrying `metadata.lambda = X`, with remote ids unique and the secret
store holding a non-empty secret under the computed key, re-running
`createStripeWebhooks` with the same declared configuration for `X` creates no
second webhook: the run succeeds and afterwards exactly one owned webhook
exists, with unchanged id. -/
theorem webhook_reconcile_idempotent_with_stored_secret
    (ctx : StripeCtx) (wc : WebhookConfig) (remote : List StripeWebhook)
    (ssm : SsmStore) (w : StripeWebhook) (f : WebhookFunction) (u nm s : String)
    (howned : remote.filter (fun v =>
      isStripeEntityManagedByThisStack ctx.service ctx.stage v.metadata) = [w])
    (hids : ∀ v ∈ remote, v.id = w.id → v = w)
    (hlam : mdGet w.metadata "lambda" = some wc.functionName)
    (hfn : ctx.functions.lookup wc.functionName = some f)
    (hvar : wc.webhookSecretEnvVariableName ≠ "")
    (hurl : getWebhookUrl ctx.domainName ctx.basePath ctx.accountId f = .ok u)
    (hnm : getSsmParameterName ctx.accountId
      (getWebhookMetadata wc.functionName ctx.stage ctx.service) = .ok nm)
    (hsec : ssm.lookup nm = some (SsmEntry.val s)) (hs : s ≠ "") :
    ∃ st, createStripeWebhooks ctx [wc] remote ssm = .ok st ∧
      (st.remote.filter fun v =>
        isStripeEntityManagedByThisStack ctx.service ctx.stage v.metadata).map
          (fun v => v.id) = [w.id] := by
  have hfind' : ([w] : List StripeWebhook).find? (fun hook =>
      mdGet hook.metadata "lambda" == some wc.functionName) = some w := by
    simp [List.find?, hlam]
  have hpw : processWebhook ctx [w] (StepState.mk remote ssm [] [] 0) wc =
      .ok (StepState.mk
        (updateRemote remote w.id u wc.events
          (getWebhookMetadata wc.functionName ctx.stage ctx.service).toMetadata)
        ssm [(wc.functionName, wc.webhookSecretEnvVariableName, s)] [w] 0) := by
    simp only [processWebhook, hfn]
    rw [if_neg hvar]
    simp only [hurl, hfind', hnm, hsec]
    simp [hs]
  have hrun : createStripeWebhooks ctx [wc] remote ssm =
      .ok (StepState.mk
        (updateRemote remote w.id u wc.events
          (getWebhookMetadata wc.functionName ctx.stage ctx.service).toMetadata)
        ssm [(wc.functionName, wc.webhookSecretEnvVariableName, s)] [w] 0) := by
    simp only [createStripeWebhooks, howned, processAll, hpw]
    simp
  refine ⟨_, hrun, ?_⟩
  have howned' : isStripeEntityManagedByThisStack ctx.service ctx.stage
      (getWebhookMetadata wc.functionName ctx.stage ctx.service).toMetadata
        = true := by
    simp [isStripeEntityManagedByThisStack, WebhookMetadata.toMetadata,
      getWebhookMetadata, mdGet_cons]
  have hfm := filter_map_update_single
    (fun v => isStripeEntityManagedByThisStack ctx.service ctx.stage v.metadata)
    remote w
    (fun v => { v with
      url := u,
      enabled_events := wc.events,
      metadata := (getWebhookMetadata wc.functionName ctx.stage ctx.service).toMetadata })
    howned hids (by exact howned')
  dsimp only
  simp only [updateRemote]
  rw [hfm]
  simp

/-- Witness for the amended C1 on a concrete one-webhook stack state. -/
theorem webhook_reconcile_idempotent_with_stored_secret_witness :
    ∃ st, createStripeWebhooks
        (StripeCtx.mk "dev" "svc" "acct1" "api.example.com" "v1"
          [("X", WebhookFunction.mk "X" [FnEvent.httpEv "post" "/hook"])]
          (fun _ => ("we_2", some "whsec_2")))
        [WebhookConfig.mk "X" ["invoice.paid"] "SECRET"]
        [StripeWebhook.mk "we_1"
          "https://api.example.com/v1/hook?stripeAccountKey=acct1"
          ["invoice.paid"]
          [("lambda", "X"), ("stage", "dev"), ("service", "svc"),
           ("managedBy", "Serverless Stripe")]]
        [("stripe-webhook-secret-acct1-svc-dev-X", SsmEntry.val "whsec_old")] =
      .ok st ∧
      (st.remote.filter fun v =>
        isStripeEntityManagedByThisStack "svc" "dev" v.metadata).map
          (fun v => v.id) = ["we_1"] := by
  exact webhook_reconcile_idempotent_with_stored_secret
    (StripeCtx.mk "dev" "svc" "acct1" "api.example.com" "v1"
      [("X", WebhookFunction.mk "X" [FnEvent.httpEv "post" "/hook"])]
      (fun _ => ("we_2", some "whsec_2")))
    (WebhookConfig.mk "X" ["invoice.paid"] "SECRET")
    [StripeWebhook.mk "we_1"
      "https://api.example.com/v1/hook?stripeAccountKey=acct1"
      ["invoice.paid"]
      [("lambda", "X"), ("stage", "dev"), ("service", "svc"),
       ("managedBy", "Serverless Stripe")]]
    [("stripe-webhook-secret-acct1-svc-dev-X", SsmEntry.val "whsec_old")]
    (StripeWebhook.mk "we_1"
      "https://api.example.com/v1/hook?stripeAccountKey=acct1"
      ["invoice.paid"]
      [("lambda", "X"), ("stage", "dev"), ("service", "svc"),
       ("managedBy", "Serverless Stripe")])
    (WebhookFunction.mk "X" [FnEvent.httpEv "post" "/hook"])
    "https://api.example.com/v1/hook?stripeAccountKey=acct1"
    "stripe-webhook-secret-acct1-svc-dev-X" "whsec_old"
    (by decide) (by decide) (by decide) rfl (by decide) rfl rfl rfl (by decide)

/-! Lemmas for C4: shapes of a successful per-webhook step, and the loop
invariant that an owned webhook absent from the declared set is never
touched. -/

theorem mem_updateRemote (remote : List StripeWebhook) (tid u : String)
    (ev : List String) (md : Metadata) (v : StripeWebhook)
    (hv : v ∈ updateRemote remote tid u ev md) :
    ∃ x ∈ remote, v.id = x.id ∧ (x.id ≠ tid → v = x) := by
  simp only [updateRemote, List.mem_map] at hv
  obtain ⟨x, hx, rfl⟩ := hv
  by_cases hxid : x.id = tid
  · exact ⟨x, hx, by simp [hxid], fun h => absurd hxid h⟩
  · exact ⟨x, hx, by simp [hxid], fun _ => by simp [hxid]⟩

theorem createWebhookStep_ok_cases (ctx : StripeCtx) (wc : WebhookConfig)
    (u : String) (mdp : WebhookMetadata) (st st' : StepState)
    (h : createWebhookStep ctx wc u mdp st = .ok st') :
    st'.remote = st.remote ++
      [StripeWebhook.mk (ctx.oracle st.counter).1 u wc.events mdp.toMetadata] ∧
    st'.createdOrUpdated = st.createdOrUpdated ++
      [StripeWebhook.mk (ctx.oracle st.counter).1 u wc.events mdp.toMetadata] := by
  simp only [createWebhookStep] at h
  split at h
  · simp at h
  · split at h
    · simp at h
    · injection h with h'
      subst h'
      exact ⟨rfl, rfl⟩

theorem processWebhook_ok_cases (ctx : StripeCtx) (wb : List StripeWebhook)
    (st st' : StepState) (wc : WebhookConfig)
    (h : processWebhook ctx wb st wc = .ok st') :
    (∃ webhook u, webhook ∈ wb ∧
       mdGet webhook.metadata "lambda" = some wc.functionName ∧
       st'.remote = updateRemote st.remote webhook.id u wc.events
         (getWebhookMetadata wc.functionName ctx.stage ctx.service).toMetadata ∧
       st'.createdOrUpdated = st.createdOrUpdated ++ [webhook]) ∨
    (∃ u, st'.remote = st.remote ++
       [StripeWebhook.mk (ctx.oracle st.counter).1 u wc.events
         (getWebhookMetadata wc.functionName ctx.stage ctx.service).toMetadata] ∧
       st'.createdOrUpdated = st.createdOrUpdated ++
       [StripeWebhook.mk (ctx.oracle st.counter).1 u wc.events
         (getWebhookMetadata wc.functionName ctx.stage ctx.service).toMetadata]) := by
  simp only [processWebhook] at h
  split at h
  · simp at h
  · split at h
    · simp at h
    · split at h
      · simp at h
      · rename_i webhookUrl hurl
        split at h
        · right
          obtain ⟨h1, h2⟩ := createWebhookStep_ok_cases ctx wc webhookUrl _ st st' h
          exact ⟨webhookUrl, h1, h2⟩
        · rename_i webhook hfind
          split at h
          · simp at h
          · split at h
            · simp at h
            · rename_i s hval
              split at h
              · right
                obtain ⟨h1, h2⟩ :=
                  createWebhookStep_ok_cases ctx wc webhookUrl _ st st' h
                exact ⟨webhookUrl, h1, h2⟩
              · left
                injection h with h'
                subst h'
                refine ⟨webhook, webhookUrl, List.mem_of_find?_eq_some hfind,
                  ?_, rfl, rfl⟩
                have := List.find?_some hfind
                simpa using this
            · right
              obtain ⟨h1, h2⟩ :=
                createWebhookStep_ok_cases ctx wc webhookUrl _ st st' h
              exact ⟨webhookUrl, h1, h2⟩
            · right
              obtain ⟨h1, h2⟩ :=
                createWebhookStep_ok_cases ctx wc webhookUrl _ st st' h
              exact ⟨webhookUrl, h1, h2⟩

theorem processAll_preserves_untouched (ctx : StripeCtx)
    (wb : List StripeWebhook) (w : StripeWebhook)
    (hwb : ∀ v ∈ wb, v.id = w.id → v = w)
    (hor : ∀ n, (ctx.oracle n).1 ≠ w.id) :
    ∀ (configs : List WebhookConfig) (st st' : StepState),
    (∀ wc ∈ configs, mdGet w.metadata "lambda" ≠ some wc.functionName) →
    (∀ v ∈ st.remote, v.id = w.id → v = w) → w ∈ st.remote →
    (∀ c ∈ st.createdOrUpdated, c.id ≠ w.id) →
    processAll ctx wb configs st = .ok st' →
    (∀ v ∈ st'.remote, v.id = w.id → v = w) ∧ w ∈ st'.remote ∧
    (∀ c ∈ st'.createdOrUpdated, c.id ≠ w.id) := by
  intro configs
  induction configs with
  | nil =>
    intro st st' _ h1 h2 h3 hrun
    rw [processAll] at hrun
    injection hrun with h'
    subst h'
    exact ⟨h1, h2, h3⟩
  | cons wc rest ih =>
    intro st st' habs h1 h2 h3 hrun
    rw [processAll] at hrun
    split at hrun
    · simp at hrun
    · rename_i st1 hstep
      rcases processWebhook_ok_cases ctx wb st st1 wc hstep with
        ⟨webhook, u, hmem, hlam, hrem, hcou⟩ | ⟨u, hrem, hcou⟩
      · have hwid : webhook.id ≠ w.id := by
          intro hid
          have heqw : webhook = w := hwb webhook hmem hid
          exact habs wc (List.mem_cons_self wc rest) (heqw ▸ hlam)
        have h1' : ∀ v ∈ st1.remote, v.id = w.id → v = w := by
          intro v hv hvid
          rw [hrem] at hv
          obtain ⟨x, hx, hid_eq, hne_case⟩ :=
            mem_updateRemote st.remote webhook.id u wc.events _ v hv
          have hxw : x = w := h1 x hx (hid_eq ▸ hvid)
          have hxne : x.id ≠ webhook.id := by
            rw [hxw]
            exact fun hh => hwid hh.symm
          rw [hne_case hxne, hxw]
        have h2' : w ∈ st1.remote := by
          rw [hrem]
          simp only [updateRemote, List.mem_map]
          refine ⟨w, h2, ?_⟩
          have hb : (w.id == webhook.id) = false :=
            beq_eq_false_iff_ne.mpr (fun hh => hwid hh.symm)
          simp [hb]
        have h3' : ∀ c ∈ st1.createdOrUpdated, c.id ≠ w.id := by
          intro c hc
          rw [hcou] at hc
          rcases List.mem_append.mp hc with hc | hc
          · exact h3 c hc
          · rw [List.mem_singleton.mp hc]
            exact hwid
        exact ih st1 st' (fun wc' hmm => habs wc' (List.mem_cons_of_mem _ hmm))
          h1' h2' h3' hrun
      · have hnid : (ctx.oracle st.counter).1 ≠ w.id := hor st.counter
        have h1' : ∀ v ∈ st1.remote, v.id = w.id → v = w := by
          intro v hv hvid
          rw [hrem] at hv
          rcases List.mem_append.mp hv with hv | hv
          · exact h1 v hv hvid
          · rw [List.mem_singleton.mp hv] at hvid
            exact absurd hvid hnid
        have h2' : w ∈ st1.remote := by
          rw [hrem]
          exact List.mem_append.mpr (Or.inl h2)
        have h3' : ∀ c ∈ st1.createdOrUpdated, c.id ≠ w.id := by
          intro c hc
          rw [hcou] at hc
          rcases List.mem_append.mp hc with hc | hc
          · exact h3 c hc
          · rw [List.mem_singleton.mp hc]
            exact hnid
        exact ih st1 st' (fun wc' hmm => habs wc' (List.mem_cons_of_mem _ hmm))
          h1' h2' h3' hrun

/-! Lemmas about the soft-marking fold and the sweep, for C4. -/

theorem foldl_updateRemoteMetadata_eq_map (L : List StripeWebhook)
    (r : List StripeWebhook) :
    L.foldl (fun r' u => updateRemoteMetadata r' u.id (markMetadata u.metadata)) r
      = r.map fun v => L.foldl (fun v' u =>
          if v'.id == u.id then { v' with metadata := markMetadata u.metadata }
          else v') v := by
  induction L generalizing r with
  | nil => simp
  | cons u L ih =>
    rw [List.foldl_cons, ih, updateRemoteMetadata, List.map_map]
    rfl

theorem perEntry_mark_preserves_id (L : List StripeWebhook)
    (v : StripeWebhook) :
    (L.foldl (fun v' u =>
      if v'.id == u.id then { v' with metadata := markMetadata u.metadata }
      else v') v).id = v.id := by
  induction L generalizing v with
  | nil => rfl
  | cons u L ih =>
    rw [List.foldl_cons]
    by_cases h : v.id = u.id
    · rw [if_pos (by simpa using h)]
      rw [ih]
    · rw [if_neg (by simpa using h)]
      exact ih v

theorem perEntry_mark_fix (w : StripeWebhook) (L : List StripeWebhook)
    (hL : ∀ u ∈ L, u.id = w.id → u = w) :
    L.foldl (fun v' u =>
      if v'.id == u.id then { v' with metadata := markMetadata u.metadata }
      else v') { w with metadata := markMetadata w.metadata }
      = { w with metadata := markMetadata w.metadata } := by
  induction L with
  | nil => rfl
  | cons u L ih =>
    rw [List.foldl_cons]
    by_cases h : u.id = w.id
    · have hu : u = w := hL u (List.mem_cons_self u L) h
      subst hu
      rw [if_pos (by simp)]
      exact ih (fun x hx => hL x (List.mem_cons_of_mem _ hx))
    · rw [if_neg (by simpa using fun hh => h (Eq.symm hh))]
      exact ih (fun x hx => hL x (List.mem_cons_of_mem _ hx))

theorem perEntry_mark_of_w (w : StripeWebhook) (L : List StripeWebhook)
    (hL : ∀ u ∈ L, u.id = w.id → u = w) (hw : w ∈ L) :
    L.foldl (fun v' u =>
      if v'.id == u.id then { v' with metadata := markMetadata u.metadata }
      else v') w = { w with metadata := markMetadata w.metadata } := by
  induction L with
  | nil => cases hw
  | cons u L ih =>
    rw [List.foldl_cons]
    by_cases h : u.id = w.id
    · have hu : u = w := hL u (List.mem_cons_self u L) h
      subst hu
      rw [if_pos (by simp)]
      exact perEntry_mark_fix u L (fun x hx => hL x (List.mem_cons_of_mem _ hx))
    · rw [if_neg (by simpa using fun hh => h (Eq.symm hh))]
      have hwL : w ∈ L := by
        rcases List.mem_cons.mp hw with rfl | hmem
        · exact absurd rfl h
        · exact hmem
      exact ih (fun x hx => hL x (List.mem_cons_of_mem _ hx)) hwL

theorem mem_foldl_filter_ne (L : List StripeWebhook) (r : List StripeWebhook)
    (v : StripeWebhook) :
    v ∈ L.foldl (fun r' u => r'.filter fun x => !(x.id == u.id)) r ↔
      v ∈ r ∧ ∀ u ∈ L, v.id ≠ u.id := by
  induction L generalizing r with
  | nil => simp
  | cons u L ih =>
    rw [List.foldl_cons, ih]
    simp only [List.mem_filter, List.mem_cons, Bool.not_eq_true', beq_eq_false_iff_ne]
    constructor
    · rintro ⟨⟨hr, hne⟩, hrest⟩
      exact ⟨hr, fun u' hu' => by
        rcases hu' with rfl | hu'
        · exact hne
        · exact hrest u' hu'⟩
    · rintro ⟨hr, hall⟩
      exact ⟨⟨hr, hall u (Or.inl rfl)⟩, fun u' hu' => hall u' (Or.inr hu')⟩

theorem sweep_active_eq (service stage : String) (R : List StripeWebhook) :
    (removeWebhooksNotInConfig service stage R).activeWebhooks =
      (R.filter fun v =>
        isStripeEntityManagedByThisStack service stage v.metadata).filter
        (fun v => !(jsTruthy (mdGet v.metadata "toBeDeleted"))) := rfl

theorem sweep_marked_eq (service stage : String) (R : List StripeWebhook)
    (huniq : ∀ a ∈ R, ∀ b ∈ R, a.id = b.id → a = b) :
    ((R.filter fun v =>
        isStripeEntityManagedByThisStack service stage v.metadata).filter
      (fun w => !((removeWebhooksNotInConfig service stage R).activeWebhooks.any
        fun wc => wc.id == w.id))) =
      ((R.filter fun v =>
        isStripeEntityManagedByThisStack service stage v.metadata).filter
        (fun v => jsTruthy (mdGet v.metadata "toBeDeleted"))) := by
  rw [sweep_active_eq]
  apply List.filter_congr
  intro v hv
  have hvR : v ∈ R := (List.mem_filter.mp hv).1
  by_cases ht : jsTruthy (mdGet v.metadata "toBeDeleted") = true
  · have hany : ((R.filter fun v' =>
        isStripeEntityManagedByThisStack service stage v'.metadata).filter
        (fun v' => !(jsTruthy (mdGet v'.metadata "toBeDeleted")))).any
        (fun wc => wc.id == v.id) = false := by
      rw [List.any_eq_false]
      intro a ha
      have haR : a ∈ R := (List.mem_filter.mp (List.mem_filter.mp ha).1).1
      intro hbeq
      have haid : a.id = v.id := by simpa using hbeq
      have hav : a = v := huniq a haR v hvR haid
      have := (List.mem_filter.mp ha).2
      rw [hav] at this
      simp [ht] at this
    rw [hany, ht]
    rfl
  · have hf : jsTruthy (mdGet v.metadata "toBeDeleted") = false := by
      revert ht
      cases jsTruthy (mdGet v.metadata "toBeDeleted") <;> simp
    have hvact : v ∈ (R.filter fun v' =>
        isStripeEntityManagedByThisStack service stage v'.metadata).filter
        (fun v' => !(jsTruthy (mdGet v'.metadata "toBeDeleted"))) :=
      List.mem_filter.mpr ⟨hv, by simp [hf]⟩
    have hany : ((R.filter fun v' =>
        isStripeEntityManagedByThisStack service stage v'.metadata).filter
        (fun v' => !(jsTruthy (mdGet v'.metadata "toBeDeleted")))).any
        (fun wc => wc.id == v.id) = true :=
      List.any_eq_true.mpr ⟨v, hvact, by simp⟩
    rw [hany, hf]
    rfl

/-- Claim C4: an owned remote webhook absent from the declared set survives the
deploy pass — its entry is still present afterwards, changed only by the
`toBeDeleted: "true"` soft-mark; the post-deploy sweep reports the untagged
owned webhooks as active and hard-deletes exactly the owned tagged ones; and
after the sweep the absent webhook's id no longer appears in the listing. -/
theorem orphan_webhook_two_phase_deletion
    (ctx : StripeCtx) (configs : List WebhookConfig)
    (remote : List StripeWebhook) (ssm : SsmStore) (w : StripeWebhook)
    (st' : StepState)
    (hw : w ∈ remote)
    (howned : isStripeEntityManagedByThisStack ctx.service ctx.stage w.metadata
      = true)
    (habs : ∀ wc ∈ configs, mdGet w.metadata "lambda" ≠ some wc.functionName)
    (hids : ∀ v ∈ remote, v.id = w.id → v = w)
    (hor : ∀ n, (ctx.oracle n).1 ≠ w.id)
    (hrun : createStripeWebhooks ctx configs remote ssm = .ok st') :
    ({ w with metadata := markMetadata w.metadata } ∈ st'.remote ∧
     ∀ v ∈ st'.remote, v.id = w.id →
       v = { w with metadata := markMetadata w.metadata }) ∧
    (removeWebhooksNotInConfig ctx.service ctx.stage st'.remote).activeWebhooks
      = (st'.remote.filter fun v =>
          isStripeEntityManagedByThisStack ctx.service ctx.stage v.metadata).filter
          (fun v => !(jsTruthy (mdGet v.metadata "toBeDeleted"))) ∧
    (∀ R : List StripeWebhook, (∀ a ∈ R, ∀ b ∈ R, a.id = b.id → a = b) →
      (removeWebhooksNotInConfig ctx.service ctx.stage R).webhooksDeleted =
        ((R.filter fun v =>
          isStripeEntityManagedByThisStack ctx.service ctx.stage v.metadata).filter
          (fun v => jsTruthy (mdGet v.metadata "toBeDeleted"))).map
          (fun v => DeletedWebhook.mk v.id v.url (mdGet v.metadata "lambda"))) ∧
    (∀ v ∈ (removeWebhooksNotInConfig ctx.service ctx.stage st'.remote).remote,
      v.id ≠ w.id) := by
  simp only [createStripeWebhooks] at hrun
  split at hrun
  · exact absurd hrun (by simp)
  · rename_i stmid hloop
    injection hrun with hst'
    have hwb : ∀ v ∈ remote.filter (fun v =>
        isStripeEntityManagedByThisStack ctx.service ctx.stage v.metadata),
        v.id = w.id → v = w :=
      fun v hv => hids v (List.mem_filter.mp hv).1
    obtain ⟨hinv1, hinv2, hinv3⟩ := processAll_preserves_untouched ctx _ w hwb
      hor configs _ stmid habs hids hw
      (fun c hc => absurd hc (List.not_mem_nil c)) hloop
    set L := (remote.filter fun v =>
        isStripeEntityManagedByThisStack ctx.service ctx.stage v.metadata).filter
        (fun v => !(stmid.createdOrUpdated.any fun wc => wc.id == v.id))
      with hLdef
    have hLw : ∀ u ∈ L, u.id = w.id → u = w :=
      fun u hu => hids u (List.mem_filter.mp (List.mem_filter.mp hu).1).1
    have hwL : w ∈ L := by
      rw [hLdef]
      refine List.mem_filter.mpr ⟨List.mem_filter.mpr ⟨hw, howned⟩, ?_⟩
      have hz : (stmid.createdOrUpdated.any fun wc => wc.id == w.id) = false :=
        List.any_eq_false.mpr (fun c hc => by simpa using hinv3 c hc)
      simp [hz]
    have hrem : st'.remote = stmid.remote.map (fun v =>
        L.foldl (fun v' u =>
          if v'.id == u.id then { v' with metadata := markMetadata u.metadata }
          else v') v) := by
      rw [← hst']
      exact foldl_updateRemoteMetadata_eq_map L stmid.remote
    have htag_mem : { w with metadata := markMetadata w.metadata } ∈
        st'.remote := by
      rw [hrem]
      exact List.mem_map.mpr ⟨w, hinv2, perEntry_mark_of_w w L hLw hwL⟩
    have htag_all : ∀ v ∈ st'.remote, v.id = w.id →
        v = { w with metadata := markMetadata w.metadata } := by
      intro v hv hvid
      rw [hrem] at hv
      obtain ⟨x, hx, rfl⟩ := List.mem_map.mp hv
      rw [perEntry_mark_preserves_id] at hvid
      rw [hinv1 x hx hvid]
      exact perEntry_mark_of_w w L hLw hwL
    have htag_owned : isStripeEntityManagedByThisStack ctx.service ctx.stage
        (markMetadata w.metadata) = true := by
      rw [isManaged_markMetadata]
      exact howned
    refine ⟨⟨htag_mem, htag_all⟩,
      sweep_active_eq ctx.service ctx.stage st'.remote, ?_, ?_⟩
    · intro R huniq
      have hdel : (removeWebhooksNotInConfig ctx.service ctx.stage R).webhooksDeleted
          = ((R.filter fun v =>
            isStripeEntityManagedByThisStack ctx.service ctx.stage v.metadata).filter
            (fun x => !(((R.filter fun y =>
              isStripeEntityManagedByThisStack ctx.service ctx.stage y.metadata).filter
              (fun y => !(jsTruthy (mdGet y.metadata "toBeDeleted")))).any
              fun wc => wc.id == x.id))).map
            (fun v => DeletedWebhook.mk v.id v.url (mdGet v.metadata "lambda")) :=
        rfl
      rw [hdel]
      have hmarked := sweep_marked_eq ctx.service ctx.stage R huniq
      rw [sweep_active_eq] at hmarked
      rw [hmarked]
    · intro v hv
      have hv2 : v ∈ (((st'.remote.filter fun x =>
          isStripeEntityManagedByThisStack ctx.service ctx.stage x.metadata).filter
          (fun x => !(((st'.remote.filter fun y =>
            isStripeEntityManagedByThisStack ctx.service ctx.stage y.metadata).filter
            (fun y => !(jsTruthy (mdGet y.metadata "toBeDeleted")))).any
            fun wc => wc.id == x.id))).foldl
          (fun r' u => r'.filter fun x => !(x.id == u.id)) st'.remote) := hv
      obtain ⟨hvR, hvall⟩ := (mem_foldl_filter_ne _ _ v).mp hv2
      have htagA : { w with metadata := markMetadata w.metadata } ∈
          st'.remote.filter fun x =>
            isStripeEntityManagedByThisStack ctx.service ctx.stage x.metadata :=
        List.mem_filter.mpr ⟨htag_mem, htag_owned⟩
      have hanyf : (((st'.remote.filter fun y =>
          isStripeEntityManagedByThisStack ctx.service ctx.stage y.metadata).filter
          (fun y => !(jsTruthy (mdGet y.metadata "toBeDeleted")))).any
          fun wc => wc.id ==
            ({ w with metadata := markMetadata w.metadata } : StripeWebhook).id)
          = false := by
        rw [List.any_eq_false]
        intro a ha
        intro hbeq
        have haR : a ∈ st'.remote :=
          (List.mem_filter.mp (List.mem_filter.mp ha).1).1
        have haid : a.id = w.id := by simpa using hbeq
        have haw : a = { w with metadata := markMetadata w.metadata } :=
          htag_all a haR haid
        have hpred := (List.mem_filter.mp ha).2
        rw [haw] at hpred
        simp [mdGet_markMetadata_tag, jsTruthy] at hpred
      have htagM : { w with metadata := markMetadata w.metadata } ∈
          ((st'.remote.filter fun x =>
            isStripeEntityManagedByThisStack ctx.service ctx.stage x.metadata).filter
            (fun x => !(((st'.remote.filter fun y =>
              isStripeEntityManagedByThisStack ctx.service ctx.stage y.metadata).filter
              (fun y => !(jsTruthy (mdGet y.metadata "toBeDeleted")))).any
              fun wc => wc.id == x.id))) :=
        List.mem_filter.mpr ⟨htagA,
          show (!(((st'.remote.filter fun y =>
            isStripeEntityManagedByThisStack ctx.service ctx.stage y.metadata).filter
            (fun y => !(jsTruthy (mdGet y.metadata "toBeDeleted")))).any
            fun wc => wc.id ==
              ({ w with metadata := markMetadata w.metadata } : StripeWebhook).id))
            = true from by rw [hanyf]; rfl⟩
      exact hvall { w with metadata := markMetadata w.metadata } htagM

/-- Witness for C4: with an empty declared set, the single owned webhook
survives the deploy pass soft-marked with `toBeDeleted`. -/
theorem orphan_webhook_two_phase_deletion_witness :
    StripeWebhook.mk "we_1" "https://u" ["e"]
        (markMetadata [("lambda", "X"), ("stage", "dev"), ("service", "svc"),
          ("managedBy", "Serverless Stripe")]) ∈
      (StepState.mk [StripeWebhook.mk "we_1" "https://u" ["e"]
        (markMetadata [("lambda", "X"), ("stage", "dev"), ("service", "svc"),
          ("managedBy", "Serverless Stripe")])] [] [] [] 0).remote := by
  exact (orphan_webhook_two_phase_deletion
    (StripeCtx.mk "dev" "svc" "acct1" "d" "b" [] (fun _ => ("we_2", some "s")))
    [] [StripeWebhook.mk "we_1" "https://u" ["e"]
      [("lambda", "X"), ("stage", "dev"), ("service", "svc"),
       ("managedBy", "Serverless Stripe")]] []
    (StripeWebhook.mk "we_1" "https://u" ["e"]
      [("lambda", "X"), ("stage", "dev"), ("service", "svc"),
       ("managedBy", "Serverless Stripe")])
    (StepState.mk [StripeWebhook.mk "we_1" "https://u" ["e"]
      (markMetadata [("lambda", "X"), ("stage", "dev"), ("service", "svc"),
        ("managedBy", "Serverless Stripe")])] [] [] [] 0)
    (by decide) (by decide) (fun wc hc => absurd hc (List.not_mem_nil wc))
    (by decide) (fun _ => show ("we_2" : String) ≠ "we_1" by decide) rfl).1.1
